import Mathlib

/-!
# Verification of the rancher-upgrader core against its specification

Shallow embedding of the upgrade-orchestration core of the
`richardbolt/rancher-upgrader` repository (the `upgrader` package and its
`main` entry point, the most complete of the orchestration variants, plus
the `rancher` data-model package).

The remote control plane is modelled by oracles: each embedded function
takes the outcomes of its HTTP interactions (fetch results, POST
success/failure) as explicit arguments and returns its Go result together
with the list of remote actions it performed, in order.  Wall-clock time
inside `WaitFor` is modelled by the cumulative sleep time: each
`time.Sleep(waitInterval)` advances the clock by `interval` seconds, and
`time.Since(start) > waitTimeout` is the comparison `timeout < elapsed`.
-/

namespace RancherUpgrader

/-- Go `rancher.Actions`: the action URLs of a resource; the empty string
models an absent action link (Go zero value after JSON decoding). -/
structure Actions where
  upgrade : String
  restart : String
  start : String
  rollback : String
deriving Repr, DecidableEq

/-- Go `rancher.Links`: resource links; `instances` is the containers link. -/
structure Links where
  instances : String
deriving Repr, DecidableEq

/-- Go `map[string]interface{}` launch config, modelled as an association
list of string keys and string values (the only field the core reads or
writes, `imageUuid`, is a string; all other entries are opaque and are
carried through unchanged). -/
abbrev LaunchConfig := List (String × String)

/-- Go `rancher.InServiceStrategy`. -/
structure InServiceStrategy where
  batchSize : Int
  intervalMillis : Int
  launchConfig : LaunchConfig
  startFirst : Bool
deriving Repr, DecidableEq

/-- Go `rancher.Upgrade`: the upgrade request payload wrapper. -/
structure Upgrade where
  inServiceStrategy : InServiceStrategy
deriving Repr, DecidableEq

/-- Go `rancher.Service`. -/
structure Service where
  name : String
  state : String
  actions : Actions
  links : Links
  launchConfig : LaunchConfig
  upgrade : Upgrade
deriving Repr, DecidableEq

/-- Go `rancher.Container`. -/
structure Container where
  id : String
  type : String
  state : String
  actions : Actions
deriving Repr, DecidableEq

/-- Go `rancher.Instances`: the decoded body of the instances link. -/
structure Instances where
  containers : List Container
deriving Repr, DecidableEq

/-- The Go `error` values the core produces or propagates. -/
inductive GoErr where
  | netErr
  | timedOut
  | noServiceConfig
  | panicNil
deriving Repr, DecidableEq

/-- Remote actions performed by the core, recorded in order.
`post a` is a POST to `svcURL + "?action=" ++ a`; `waitCall ds` is a call
to `WaitFor ds` (one entry into the polling loop); `getInstances u` is the
GET of the instances link `u`; `startPost u` is a POST to a container
start-action URL `u`. -/
inductive Ev where
  | post (action : String)
  | waitCall (desired : List String)
  | getInstances (url : String)
  | startPost (url : String)
deriving Repr, DecidableEq

/-- Go map read `lc["imageUuid"]`: `none` models a missing key (nil
interface value, on which a `.(string)` type assertion panics). -/
def lcGet (lc : LaunchConfig) (k : String) : Option String :=
  match lc with
  | [] => none
  | (k₀, v) :: rest => if k₀ = k then some v else lcGet rest k

/-- Go map write `lc[k] = v`: replace the binding if present, insert it
otherwise; every other entry is unchanged. -/
def lcSet (lc : LaunchConfig) (k v : String) : LaunchConfig :=
  match lc with
  | [] => [(k, v)]
  | (k₀, v₀) :: rest => if k₀ = k then (k, v) :: rest else (k₀, v₀) :: lcSet rest k v

/-- Character class `[a-z0-9]` of the Go regular expression. -/
def isTagChar (c : Char) : Bool :=
  (Char.ofNat 97 ≤ c && c ≤ Char.ofNat 122) || (Char.ofNat 48 ≤ c && c ≤ Char.ofNat 57)

/-- Go `regexp.MustCompile(":[a-z0-9]+$").ReplaceAllString(s, ":" + tag)`.
The anchored pattern matches at most once: a colon followed by a nonempty
run of `[a-z0-9]` extending to the end of the string (necessarily the last
colon, since the class excludes the colon itself).  When it matches, that
suffix is replaced by `":" ++ tag`; otherwise the string is unchanged. -/
def rewriteImageTag (s tag : String) : String :=
  let rev := s.toList.reverse
  let run := rev.takeWhile isTagChar
  match rev.dropWhile isTagChar with
  | ':' :: pre =>
      if run.isEmpty then s
      else String.mk (pre.reverse ++ ':' :: tag.toList)
  | _ => s

/-- Go `upgrader.ImageUUID uuid`: the upgrade `Option` that sets
`s.LaunchConfig["imageUuid"] = uuid` on the Service it is applied to. -/
def ImageUUID (uuid : String) (s : Service) : Service :=
  { s with launchConfig := lcSet s.launchConfig "imageUuid" uuid }

/-- One fetch of the Service inside the `WaitFor` polling loop:
`fail` is a `client.Do` error (the network-error branch), `ok s` is a
successful response decoded into `s`. -/
inductive FetchOutcome where
  | fail
  | ok (s : Service)
deriving Repr, DecidableEq

/-- How one call to `WaitFor` ends.  `success s` is the `return &service,
nil` branch (state matched), `timedOut s` is the `return &service,
errors.New("Timed out ...")` branch, and `running` means the supplied
fetch trace was consumed without the loop returning — the loop is still
iterating (on an infinite extension of such a trace it never returns). -/
inductive WaitRes where
  | success (s : Service)
  | timedOut (s : Service)
  | running
deriving Repr, DecidableEq

/-- Embedding of `(*rancherUpgrader).WaitFor` (upgrader.go).  Arguments
after the configuration: the trace of fetch outcomes, the elapsed time
`time.Since(start)` in seconds, and the number of `time.Sleep` calls
performed so far (returned alongside the result so that sleeping behaviour
is observable).  Each loop iteration consumes one fetch outcome:
a failed fetch logs and `continue`s — no sleep, no timeout check, no time
advance; a successful fetch whose state is in `desiredStates` returns
immediately; otherwise the loop sleeps `interval` seconds and then returns
timed-out when `timeout < elapsed`, else iterates. -/
def waitForCount (desiredStates : List String) (timeout interval : Nat) :
    List FetchOutcome → Nat → Nat → WaitRes × Nat
  | [], _, sleeps => (.running, sleeps)
  | .fail :: rest, elapsed, sleeps =>
      waitForCount desiredStates timeout interval rest elapsed sleeps
  | .ok s :: rest, elapsed, sleeps =>
      if desiredStates.contains s.state then (.success s, sleeps)
      else
        let elapsed₁ := elapsed + interval
        if timeout < elapsed₁ then (.timedOut s, sleeps + 1)
        else waitForCount desiredStates timeout interval rest elapsed₁ (sleeps + 1)

/-- Number of successful fetches in a trace prefix (each of which, when it
does not match, costs exactly one sleep in `waitForCount`). -/
def countOk : List FetchOutcome → Nat
  | [] => 0
  | .fail :: rest => countOk rest
  | .ok _ :: rest => 1 + countOk rest

/-- The container loop of `startContainers` (upgrader.go): for each
container in order, a container with an empty `actions.start` link is
logged and skipped; otherwise a POST to its start URL is issued
(`startOk url` says whether `client.Do` succeeds), and a failed POST
returns that error immediately, abandoning the rest of the sweep. -/
def startLoop (startOk : String → Bool) :
    List Container → List Ev → Option GoErr × List Ev
  | [], acc => (none, acc)
  | c :: cs, acc =>
      if c.actions.start = "" then startLoop startOk cs acc
      else if startOk c.actions.start then
        startLoop startOk cs (acc ++ [Ev.startPost c.actions.start])
      else (some .netErr, acc ++ [Ev.startPost c.actions.start])

/-- Embedding of `startContainers` (upgrader.go): GET the Service's
instances link (`instFetch` is the combined fetch-and-decode outcome),
then run the start sweep over the decoded containers. -/
def startContainers (svcConfig : Service) (instFetch : Except GoErr Instances)
    (startOk : String → Bool) : Option GoErr × List Ev :=
  match instFetch with
  | .error e => (some e, [Ev.getInstances svcConfig.links.instances])
  | .ok insts => startLoop startOk insts.containers [Ev.getInstances svcConfig.links.instances]

/-- Embedding of `(*rancherUpgrader).Rollback` (upgrader.go): POST
`?action=rollback` (`postOk` is the `client.Do` outcome), then
`WaitFor("active")` (`waitRes` is its returned `(*Service, error)` pair),
then `startContainers` on the returned Service.  A wait error is returned
before the sweep; the Go type also admits a nil Service with a nil error,
on which `startContainers` would dereference nil (`panicNil`). -/
def Rollback (postOk : Bool) (waitRes : Option Service × Option GoErr)
    (instFetch : Except GoErr Instances) (startOk : String → Bool) :
    Option GoErr × List Ev :=
  if postOk then
    let evs := [Ev.post "rollback", Ev.waitCall ["active"]]
    match waitRes with
    | (_, some e) => (some e, evs)
    | (some svc, none) =>
        let sres := startContainers svc instFetch startOk
        (sres.1, evs ++ sres.2)
    | (none, none) => (some .panicNil, evs)
  else (some .netErr, [Ev.post "rollback"])

/-- Embedding of `(*rancherUpgrader).Cancel` (upgrader.go): POST
`?action=cancelupgrade`, then `WaitFor("upgraded", "canceled-upgrade",
"active")` (`waitRes` is its returned pair).  A wait error is returned
immediately; with no error, a non-nil Service delegates to `Rollback`
(whose own remote interactions are the oracle arguments `rbPostOk`,
`rbWaitRes`, `instFetch`, `startOk`), and a nil Service returns the
`"No updated service config available"` error without rolling back. -/
def Cancel (postOk : Bool) (waitRes : Option Service × Option GoErr)
    (rbPostOk : Bool) (rbWaitRes : Option Service × Option GoErr)
    (instFetch : Except GoErr Instances) (startOk : String → Bool) :
    Option GoErr × List Ev :=
  if postOk then
    let evs := [Ev.post "cancelupgrade", Ev.waitCall ["upgraded", "canceled-upgrade", "active"]]
    match waitRes with
    | (_, some e) => (some e, evs)
    | (some _, none) =>
        let rres := Rollback rbPostOk rbWaitRes instFetch startOk
        (rres.1, evs ++ rres.2)
    | (none, none) => (some .noServiceConfig, evs)
  else (some .netErr, [Ev.post "cancelupgrade"])

/-- Embedding of `(*rancherUpgrader).FinishUpgrade` (upgrader.go): POST
`?action=finishupgrade` and decode the response (`postRes`), then block on
`WaitFor("active")` (`waitRes`), returning the Service that wait produced. -/
def FinishUpgrade (postRes : Except GoErr Service)
    (waitRes : Option Service × Option GoErr) :
    Except GoErr (Option Service) × List Ev :=
  match postRes with
  | .error e => (.error e, [Ev.post "finishupgrade"])
  | .ok _ =>
      let evs := [Ev.post "finishupgrade", Ev.waitCall ["active"]]
      match waitRes with
      | (_, some e) => (.error e, evs)
      | (svc, none) => (.ok svc, evs)

/-- Step 6 of `main` (upgrader variant): if `RancherFinishUpgrade` is set,
call `FinishUpgrade` and exit non-zero (`log.Fatal`) on its error, zero on
success; if unset, log and exit zero with no further remote interaction.
The returned Bool is true exactly on exit status zero. -/
def finishStep (finishEnabled : Bool) (postRes : Except GoErr Service)
    (waitRes : Option Service × Option GoErr) : Bool × List Ev :=
  if finishEnabled then
    let fres := FinishUpgrade postRes waitRes
    match fres.1 with
    | .error _ => (false, fres.2)
    | .ok _ => (true, fres.2)
  else (true, [])

/-- Operator configuration fields of `rancher.Config` that the upgrade
submission path reads. -/
structure Cfg where
  buildTag : String
  startFirst : Bool
deriving Repr, DecidableEq

/-- The `rancher.Upgrade` literal built in `main` from the initially
fetched Service `svc₁` and the operator configuration: the strategy's
batch size and interval, `svc₁`'s launch config map, and the start-first
flag.  (`main` does not write the rewritten image back into this map.) -/
def buildUpgradePayload (svc₁ : Service) (cfg : Cfg) : Upgrade :=
  { inServiceStrategy :=
    { batchSize := svc₁.upgrade.inServiceStrategy.batchSize
      intervalMillis := svc₁.upgrade.inServiceStrategy.intervalMillis
      launchConfig := svc₁.launchConfig
      startFirst := cfg.startFirst } }

/-- Embedding of `(*rancherUpgrader).Upgrade` (upgrader.go): fetch the
Service afresh via `GetServiceConfig` (`fetch₂`; an error is returned
unchanged), apply each option to that freshly fetched Service, marshal
the `payload` ARGUMENT (not the option-modified fetch), and POST it to the
fresh Service's upgrade action URL.  Returns the URL POSTed to and the
marshalled body. -/
def upgradeMethod (payload : Upgrade) (opts : List (Service → Service))
    (fetch₂ : Option Service) (postOk : Bool) :
    Except GoErr (String × Upgrade) :=
  match fetch₂ with
  | none => .error .netErr
  | some svc₂ =>
      let svc₂ := opts.foldl (fun s o => o s) svc₂
      if postOk then .ok (svc₂.actions.upgrade, payload) else .error .netErr

/-- How the upgrade-submission prefix of `main` ends: `fatalExit` is a
`log.Fatal` (non-zero exit) before anything was POSTed; `panicExit` is a
runtime panic (nil Service dereference or failed `.(string)` assertion);
`upgradeFailed` is a `log.Fatal` after `Upgrade` returned an error;
`submitted url body` means the upgrade request `body` was POSTed to `url`. -/
inductive StartResult where
  | fatalExit
  | panicExit
  | upgradeFailed
  | submitted (url : String) (body : Upgrade)
deriving Repr, DecidableEq

/-- Embedding of the prefix of `main` (upgrader variant) up to and
including the upgrade submission: fetch the Service (`fetch₁`; the error
is not checked, so a failed fetch dereferences nil); `log.Fatal` if its
upgrade action link is absent; read `launchConfig["imageUuid"]` (a missing
key panics on the type assertion); rewrite its tag to the configured build
tag; call `Upgrade` with the payload built from this fetch and the
`ImageUUID` option carrying the rewritten reference. -/
def mainStart (cfg : Cfg) (fetch₁ fetch₂ : Option Service) (postOk : Bool) :
    StartResult :=
  match fetch₁ with
  | none => .panicExit
  | some svc₁ =>
      if svc₁.actions.upgrade = "" then .fatalExit
      else
        match lcGet svc₁.launchConfig "imageUuid" with
        | none => .panicExit
        | some img =>
            let img₁ := rewriteImageTag img cfg.buildTag
            match upgradeMethod (buildUpgradePayload svc₁ cfg) [ImageUUID img₁] fetch₂ postOk with
            | .error _ => .upgradeFailed
            | .ok (url, body) => .submitted url body

/-- A Service observed in the `"upgrading"` state, with no action links. -/
def svcUpgrading : Service :=
  { name := "web", state := "upgrading"
    actions := { upgrade := "", restart := "", start := "", rollback := "" }
    links := { instances := "" }, launchConfig := []
    upgrade := { inServiceStrategy :=
      { batchSize := 1, intervalMillis := 2000, launchConfig := [], startFirst := false } } }

/-- A Service observed in the `"upgraded"` state. -/
def svcUpgraded : Service :=
  { svcUpgrading with state := "upgraded" }

/-- A Service observed in the `"active"` state. -/
def svcActive : Service :=
  { svcUpgrading with state := "active" }

/-- The initially fetched Service of the image-override scenario: active,
upgradeable, with image reference `docker:repo/img:old`. -/
def svcC6 : Service :=
  { name := "web", state := "active"
    actions := { upgrade := "http://rancher/v1/projects/1a5/services/1s1/?action=upgrade"
                 restart := "", start := "", rollback := "" }
    links := { instances := "http://rancher/v1/projects/1a5/services/1s1/instances" }
    launchConfig := [("imageUuid", "docker:repo/img:old")]
    upgrade := { inServiceStrategy :=
      { batchSize := 2, intervalMillis := 10000, launchConfig := [], startFirst := false } } }

/-- Operator configuration of the image-override scenario: build tag `v2`. -/
def cfgC6 : Cfg := { buildTag := "v2", startFirst := true }

/-- C1 counterexample: with timeout 3 seconds and check interval 1 second,
after 100 consecutive failed fetches `WaitFor` has still not returned —
each failed fetch `continue`s past both the sleep and the timeout check —
refuting the claim that the overall timeout bounds the number of failed
fetches and that `WaitFor` then returns a timed-out outcome. -/
theorem waitFor_hundred_failures_still_looping :
    waitForCount ["upgraded"] 3 1 (List.replicate 100 FetchOutcome.fail) 0 0 =
      (WaitRes.running, 0) := by
  rfl

/-- C1 (amended): when every fetch fails, `WaitFor` never returns: a failed
fetch retries immediately without sleeping and without consulting the
timeout, so no number of consecutive failed fetches ever produces a
return — the loop runs forever on an all-failure fetch sequence, for every
desired-state set, timeout, interval, and starting clock. -/
theorem waitFor_all_failures_never_returns :
    ∀ (n : Nat) (ds : List String) (timeout interval elapsed sleeps : Nat),
    waitForCount ds timeout interval (List.replicate n FetchOutcome.fail) elapsed sleeps =
      (WaitRes.running, sleeps) := by
  intro n
  induction n with
  | zero =>
      intro ds t i e sl
      simp [List.replicate, waitForCount]
  | succ k ih =>
      intro ds t i e sl
      simp only [List.replicate_succ, waitForCount]
      exact ih ds t i e sl

/-- C2 counterexample: with timeout 5 seconds and interval 1 second, a
sequence on which every fetch fails never reaches the timeout check: after
42 failed fetches `WaitFor` has not returned at all, refuting the claimed
`TimedOut` return carrying no Service (nil) when every fetch fails. -/
theorem waitFor_all_failures_no_timedOut_return :
    waitForCount ["active"] 5 1 (List.replicate 42 FetchOutcome.fail) 0 0 =
      (WaitRes.running, 0) := by
  rfl

/-- C2 (amended): on every fetch sequence whose successful fetches never
reach a desired state, `WaitFor` either has not returned (in particular it
never returns when every fetch fails) or returns the timed-out outcome
carrying the Service of the final loop iteration — the last successfully
fetched Service, later fetch outcomes being unconsumed (truncating the
trace right after that fetch yields the same return); it never returns
success and never returns without a Service. -/
theorem waitFor_nomatch_timedOut_with_last_fetch (ds : List String) (t i : Nat) :
    ∀ (ts : List FetchOutcome) (e sl : Nat),
    (∀ u : Service, FetchOutcome.ok u ∈ ts → ds.contains u.state = false) →
    (waitForCount ds t i ts e sl).1 = WaitRes.running ∨
    ∃ pre s suf m, ts = pre ++ FetchOutcome.ok s :: suf ∧
      ds.contains s.state = false ∧
      waitForCount ds t i ts e sl = (WaitRes.timedOut s, m) ∧
      waitForCount ds t i (pre ++ [FetchOutcome.ok s]) e sl = (WaitRes.timedOut s, m) := by
  intro ts
  induction ts with
  | nil =>
      intro e sl _
      left
      rfl
  | cons o rest ih =>
      intro e sl h
      have hrest : ∀ u : Service, FetchOutcome.ok u ∈ rest → ds.contains u.state = false := by
        intro u hu
        exact h u (List.mem_cons_of_mem _ hu)
      cases o with
      | fail =>
          rcases ih e sl hrest with hr | ⟨pre, s, suf, m, hts, hs, hres, htrunc⟩
          · left
            simpa [waitForCount] using hr
          · right
            refine ⟨FetchOutcome.fail :: pre, s, suf, m, by simp [hts], hs, ?_, ?_⟩
            · simpa [waitForCount] using hres
            · simpa [waitForCount] using htrunc
      | ok s₀ =>
          have hs₀ : ds.contains s₀.state = false := h s₀ (List.mem_cons_self _ _)
          have hm₀ : s₀.state ∉ ds := by simpa using hs₀
          by_cases ht : t < e + i
          · right
            refine ⟨[], s₀, rest, sl + 1, rfl, hs₀, ?_, ?_⟩
            · simp [waitForCount, hm₀, ht]
            · simp [waitForCount, hm₀, ht]
          · rcases ih (e + i) (sl + 1) hrest with hr | ⟨pre, s, suf, m, hts, hs, hres, htrunc⟩
            · left
              simpa [waitForCount, hm₀, ht] using hr
            · right
              refine ⟨FetchOutcome.ok s₀ :: pre, s, suf, m, by simp [hts], hs, ?_, ?_⟩
              · simpa [waitForCount, hm₀, ht] using hres
              · simpa [waitForCount, hm₀, ht] using htrunc

/-- C2 witness: the amended statement instantiated at a concrete
never-matching trace (one failed fetch, then an `"upgrading"` Service,
with desired state `"active"`, timeout 0 and interval 1). -/
theorem waitFor_nomatch_timedOut_witness :
    (waitForCount ["active"] 0 1 [FetchOutcome.fail, FetchOutcome.ok svcUpgrading] 0 0).1 =
        WaitRes.running ∨
    ∃ pre s suf m,
      [FetchOutcome.fail, FetchOutcome.ok svcUpgrading] = pre ++ FetchOutcome.ok s :: suf ∧
      ["active"].contains s.state = false ∧
      waitForCount ["active"] 0 1 [FetchOutcome.fail, FetchOutcome.ok svcUpgrading] 0 0 =
        (WaitRes.timedOut s, m) ∧
      waitForCount ["active"] 0 1 (pre ++ [FetchOutcome.ok s]) 0 0 =
        (WaitRes.timedOut s, m) :=
  waitFor_nomatch_timedOut_with_last_fetch ["active"] 0 1
    [FetchOutcome.fail, FetchOutcome.ok svcUpgrading] 0 0
    (by intro u hu; simp at hu; rcases hu with rfl; decide)

/-- Auxiliary: running `waitForCount` on a trace whose prefix consists of
failed fetches and successful non-matching fetches, followed by a matching
fetch, returns success with the matching Service, having slept exactly
once per successful non-matching fetch, provided the clock never exceeds
the timeout over the prefix. -/
theorem waitForCount_match_aux (ds : List String) (t i : Nat) (s : Service)
    (rest : List FetchOutcome) (hs : ds.contains s.state = true) :
    ∀ (pre : List FetchOutcome) (e sl : Nat),
    (∀ u : Service, FetchOutcome.ok u ∈ pre → ds.contains u.state = false) →
    e + countOk pre * i ≤ t →
    waitForCount ds t i (pre ++ FetchOutcome.ok s :: rest) e sl =
      (WaitRes.success s, sl + countOk pre) := by
  intro pre
  induction pre with
  | nil =>
      intro e sl _ _
      have hms : s.state ∈ ds := by simpa using hs
      simp [waitForCount, countOk, hms]
  | cons o pre ih =>
      intro e sl hpre hle
      have hpre' : ∀ u : Service, FetchOutcome.ok u ∈ pre → ds.contains u.state = false := by
        intro u hu
        exact hpre u (List.mem_cons_of_mem _ hu)
      cases o with
      | fail =>
          have hle' : e + countOk pre * i ≤ t := by
            simpa [countOk] using hle
          simpa [waitForCount, countOk] using ih e sl hpre' hle'
      | ok u =>
          have hu : ds.contains u.state = false := hpre u (List.mem_cons_self _ _)
          have hmu : u.state ∉ ds := by simpa using hu
          have hle' : (e + i) + countOk pre * i ≤ t := by
            calc (e + i) + countOk pre * i
                = e + (1 + countOk pre) * i := by ring
              _ = e + countOk (FetchOutcome.ok u :: pre) * i := by simp [countOk]
              _ ≤ t := hle
          have hnt : ¬ t < e + i := Nat.not_lt.mpr (le_trans (Nat.le_add_right _ _) hle')
          have hrec := ih (e + i) (sl + 1) hpre' hle'
          calc waitForCount ds t i ((FetchOutcome.ok u :: pre) ++ FetchOutcome.ok s :: rest) e sl
              = waitForCount ds t i (pre ++ FetchOutcome.ok s :: rest) (e + i) (sl + 1) := by
                simp [waitForCount, hmu, hnt]
            _ = (WaitRes.success s, (sl + 1) + countOk pre) := hrec
            _ = (WaitRes.success s, sl + countOk (FetchOutcome.ok u :: pre)) := by
                have harith : (sl + 1) + countOk pre = sl + countOk (FetchOutcome.ok u :: pre) := by
                  simp [countOk]
                  omega
                rw [harith]

/-- C3: for every desired-state set and every fetch sequence whose prefix
never matches and reaches a matching Service within the timeout, `WaitFor`
returns success with exactly the Service whose state matched, and the
number of sleeps equals the number of successful fetches before the match:
the match check precedes the interval sleep, so no sleep follows the
matching fetch. -/
theorem waitFor_match_returns_without_sleep (ds : List String) (t i : Nat)
    (pre rest : List FetchOutcome) (s : Service)
    (hpre : ∀ u : Service, FetchOutcome.ok u ∈ pre → ds.contains u.state = false)
    (hs : ds.contains s.state = true)
    (ht : countOk pre * i ≤ t) :
    waitForCount ds t i (pre ++ FetchOutcome.ok s :: rest) 0 0 =
      (WaitRes.success s, countOk pre) := by
  simpa using waitForCount_match_aux ds t i s rest hs pre 0 0 hpre (by simpa using ht)

/-- C3 witness: a failed fetch, one `"upgrading"` observation, then an
`"upgraded"` observation, with timeout 3600 and interval 1: success with
the matched Service after exactly one sleep. -/
theorem waitFor_match_returns_without_sleep_witness :
    waitForCount ["upgraded"] 3600 1
        ([FetchOutcome.fail, FetchOutcome.ok svcUpgrading] ++
          FetchOutcome.ok svcUpgraded :: []) 0 0 =
      (WaitRes.success svcUpgraded,
       countOk [FetchOutcome.fail, FetchOutcome.ok svcUpgrading]) :=
  waitFor_match_returns_without_sleep ["upgraded"] 3600 1
    [FetchOutcome.fail, FetchOutcome.ok svcUpgrading] [] svcUpgraded
    (by intro u hu; simp at hu; rcases hu with rfl; decide)
    (by decide)
    (by decide)

/-- C4: `Cancel` first POSTs the cancel action and then waits with desired
states `{"upgraded", "canceled-upgrade", "active"}`; when the wait ends
without error carrying a Service, `Cancel` delegates to `Rollback`,
returning its result and appending its remote actions; when the poller
yields no Service at all (nil Service, nil error), `Cancel` returns the
no-service-config error and performs no rollback interaction whatsoever
(its action trace is exactly the cancel POST and the wait). -/
theorem cancel_delegates_to_rollback_or_noServiceConfig :
    ∀ (svc : Service) (rbPostOk : Bool) (rbWaitRes : Option Service × Option GoErr)
      (instFetch : Except GoErr Instances) (startOk : String → Bool),
    Cancel true (some svc, none) rbPostOk rbWaitRes instFetch startOk =
      ((Rollback rbPostOk rbWaitRes instFetch startOk).1,
       Ev.post "cancelupgrade" :: Ev.waitCall ["upgraded", "canceled-upgrade", "active"] ::
         (Rollback rbPostOk rbWaitRes instFetch startOk).2)
    ∧ Cancel true (none, none) rbPostOk rbWaitRes instFetch startOk =
        (some GoErr.noServiceConfig,
         [Ev.post "cancelupgrade", Ev.waitCall ["upgraded", "canceled-upgrade", "active"]]) := by
  intro svc rbPostOk rbWaitRes instFetch startOk
  exact ⟨rfl, rfl⟩

/-- Auxiliary: the container sweep of `startContainers`, when every start
POST succeeds, returns no error and appends exactly one start POST per
container whose start action link is present, in order; containers with an
empty start link contribute nothing. -/
theorem startLoop_all_ok (cs : List Container) :
    ∀ acc : List Ev,
    startLoop (fun _ => true) cs acc =
      (none, acc ++ (cs.filter (fun c => c.actions.start != "")).map
        (fun c => Ev.startPost c.actions.start)) := by
  induction cs with
  | nil =>
      intro acc
      simp [startLoop]
  | cons c cs ih =>
      intro acc
      by_cases hc : c.actions.start = ""
      · simp [startLoop, hc, ih acc, List.filter_cons]
      · simp [startLoop, hc, ih (acc ++ [Ev.startPost c.actions.start]), List.filter_cons]

/-- C5: `Rollback` POSTs the rollback action, waits for the `"active"`
state, fetches the Containers at the waited-for Service's instances link,
and then (when every start POST succeeds) issues exactly one start action
per Container whose action links include start, in order; Containers
without a start action are skipped and the sweep completes with no error. -/
theorem rollback_starts_exactly_startable_containers :
    ∀ (svc : Service) (insts : Instances),
    Rollback true (some svc, none) (Except.ok insts) (fun _ => true) =
      (none,
       Ev.post "rollback" :: Ev.waitCall ["active"] ::
         Ev.getInstances svc.links.instances ::
         (insts.containers.filter (fun c => c.actions.start != "")).map
           (fun c => Ev.startPost c.actions.start)) := by
  intro svc insts
  simp [Rollback, startContainers, startLoop_all_ok]

/-- C6: the code does not deliver the image override to the wire.  In the
concrete run where the Service's launch config holds image reference
`docker:repo/img:old` and the configured build tag is `v2`, `main` submits
the upgrade, but the body POSTed to the upgrade action URL is the payload
built from the first fetch, whose `imageUuid` is still
`docker:repo/img:old`; the rewrite, which yields `docker:repo/img:v2`,
was applied through the `ImageUUID` option to the Service fetched afresh
inside `Upgrade`, a copy that is never marshalled.  This contradicts the
specified behaviour (the serialized launch config carries the overridden
image reference), and the program's own stated purpose of upgrading the
service to the configured build tag. -/
theorem upgrade_request_body_keeps_old_image :
    mainStart cfgC6 (some svcC6) (some svcC6) true =
      StartResult.submitted "http://rancher/v1/projects/1a5/services/1s1/?action=upgrade"
        (buildUpgradePayload svcC6 cfgC6)
    ∧ lcGet (buildUpgradePayload svcC6 cfgC6).inServiceStrategy.launchConfig "imageUuid" =
        some "docker:repo/img:old"
    ∧ rewriteImageTag "docker:repo/img:old" cfgC6.buildTag = "docker:repo/img:v2" := by
  exact ⟨rfl, rfl, rfl⟩

/-- C7 counterexample: a run that reaches step 6 with finish-upgrade
enabled does poll again — `FinishUpgrade` calls `WaitFor("active")` after
POSTing the finish action, so the wait call appears in the step's action
trace, refuting the claim that no further polling of the Service state
occurs after the finish-upgrade decision. -/
theorem finish_step_enabled_polls_again :
    Ev.waitCall ["active"] ∈
      (finishStep true (Except.ok svcActive) (some svcActive, none)).2 := by
  decide

/-- C7 (amended): a run that reaches step 6 never re-enters the
upgrade-wait loop: with finish-upgrade disabled it terminates as succeeded
with no further remote interaction at all, and with finish-upgrade enabled
its remaining interactions are the finish POST, followed by at most one
further wait — `FinishUpgrade`'s wait for the `"active"` state — after
which the run terminates. -/
theorem finish_step_terminates_after_single_active_wait :
    ∀ (postRes : Except GoErr Service) (waitRes : Option Service × Option GoErr),
    finishStep false postRes waitRes = (true, [])
    ∧ ((finishStep true postRes waitRes).2 = [Ev.post "finishupgrade"] ∨
       (finishStep true postRes waitRes).2 =
         [Ev.post "finishupgrade", Ev.waitCall ["active"]]) := by
  intro postRes waitRes
  refine ⟨rfl, ?_⟩
  rcases postRes with e | s
  · left
    rfl
  · rcases waitRes with ⟨sv, he⟩
    rcases he with _ | e
    · right
      rfl
    · right
      rfl

/-- C8: whenever the initially fetched Service has no upgrade entry in its
action links (empty upgrade URL), `main` exits fatally at the precondition
check: no upgrade request is submitted, no second fetch is consulted, and
nothing is retried. -/
theorem main_fatal_when_not_upgradeable :
    ∀ (cfg : Cfg) (svc₁ : Service) (fetch₂ : Option Service) (postOk : Bool),
    svc₁.actions.upgrade = "" →
    mainStart cfg (some svc₁) fetch₂ postOk = StartResult.fatalExit := by
  intro cfg svc₁ fetch₂ postOk h
  simp [mainStart, h]

/-- C8 witness: the precondition failure at a concrete Service whose
upgrade action link is absent. -/
theorem main_fatal_when_not_upgradeable_witness :
    svcUpgrading.actions.upgrade = ""
    ∧ mainStart cfgC6 (some svcUpgrading) none true = StartResult.fatalExit :=
  ⟨rfl, main_fatal_when_not_upgradeable cfgC6 svcUpgrading none true rfl⟩

/-- C9: the image-reference rewrite is idempotent for the same tag on the
claimed inputs: rewriting `repo/img:old` with tag `v2` yields
`repo/img:v2`, and rewriting that result again with `v2` returns it
unchanged. -/
theorem rewrite_image_tag_idempotent_on_v2 :
    rewriteImageTag "repo/img:old" "v2" = "repo/img:v2"
    ∧ rewriteImageTag "repo/img:v2" "v2" = "repo/img:v2" := by
  exact ⟨rfl, rfl⟩

/-- C10: when `Cancel`'s internal wait ends with the timed-out error,
`Cancel` returns that error immediately even though the wait also produced
a non-nil Service snapshot: its whole action trace is the cancel POST and
the wait call — no rollback POST and no container start POST occur on this
path, whatever the rollback-stage oracles would have answered. -/
theorem cancel_wait_timeout_skips_rollback :
    ∀ (svc : Service) (rbPostOk : Bool) (rbWaitRes : Option Service × Option GoErr)
      (instFetch : Except GoErr Instances) (startOk : String → Bool),
    Cancel true (some svc, some GoErr.timedOut) rbPostOk rbWaitRes instFetch startOk =
      (some GoErr.timedOut,
       [Ev.post "cancelupgrade", Ev.waitCall ["upgraded", "canceled-upgrade", "active"]]) := by
  intro svc rbPostOk rbWaitRes instFetch startOk
  rfl

end RancherUpgrader
